import Mathlib

/-!
# Verification of the `temperature_sensor` crate core

Shallow embedding of the data model and of the operations of
`src/lib.rs` (`sample_sensor`, `filter_sensor`), together with a
spec-modelled Cumulative-Breach Reconstructor whose implementation lives
in the `berlinger` module that is not part of `lib.rs`.

Modelling conventions:
  * `chrono::NaiveDateTime` timestamps are modelled as `ℤ` seconds since
    the Unix epoch; `chrono::Duration` as `ℤ` seconds.  All comparisons
    and arithmetic used by the code are total and order-preserving under
    this encoding.
  * `f64` temperatures are modelled as `ℚ`; the code only stores and
    compares them, so exact rationals are faithful for the decimal
    literals involved.
  * Rust `Option<Vec<T>>` becomes `Option (List T)`; the push-loop
    filters of `filter_sensor` become `List.filter`.
-/

namespace TemperatureSensor

/-- `common::BreachType`: the four breach variants. -/
inductive BreachType where
  | ColdConsecutive
  | HotConsecutive
  | ColdCumulative
  | HotCumulative
  deriving DecidableEq, Repr

/-- `common::SensorType`: decoding family; only Berlinger appears in `lib.rs`. -/
inductive SensorType where
  | Berlinger
  deriving DecidableEq, Repr

/-- `common::TemperatureLog { temperature: f64, timestamp: NaiveDateTime }`. -/
structure TemperatureLog where
  temperature : ℚ
  timestamp : ℤ
  deriving DecidableEq, Repr

/-- `common::TemperatureBreachConfig`. -/
structure TemperatureBreachConfig where
  breach_type : BreachType
  maximum_temperature : ℚ
  minimum_temperature : ℚ
  duration : ℤ
  deriving DecidableEq, Repr

/-- `common::TemperatureBreach`. -/
structure TemperatureBreach where
  breach_type : BreachType
  start_timestamp : ℤ
  end_timestamp : ℤ
  duration : ℤ
  acknowledged : Bool
  deriving DecidableEq, Repr

/-- `common::Sensor`: the aggregate root. -/
@[ext]
structure Sensor where
  sensor_type : SensorType
  serial : String
  name : String
  last_connected_timestamp : Option ℤ
  log_interval : Option ℤ
  breaches : Option (List TemperatureBreach)
  configs : Option (List TemperatureBreachConfig)
  logs : Option (List TemperatureLog)
  deriving DecidableEq, Repr

/-! ## `sample_sensor` (lib.rs lines 95-167) -/

/-- The literal sample temperature sequence of `sample_sensor`. -/
def temperature_values : List ℚ :=
  [3.5, 4.0, 5.0, 7.5,
   8.8, 9.2, 8.7, 9.1, 8.4, 8.2, 8.1,
   7.9, 3.2,
   1.2, 1.3, 0.4, -0.2, 0.7,
   2.5]

/-- 2023-05-23 13:00:00 as seconds since the Unix epoch
(19500 days plus 13 hours], the value parsed in `sample_sensor`. -/
def sampleBase : ℤ := 19500 * 86400 + 13 * 3600

/-- The push loop of `sample_sensor`: one `TemperatureLog` per value,
advancing the timestamp by the interval after each push. -/
def mkLogs : List ℚ → ℤ → ℤ → List TemperatureLog
  | [], _, _ => []
  | t :: rest, ts, interval =>
      { temperature := t, timestamp := ts } :: mkLogs rest (ts + interval) interval

/-- `sample_sensor` (lib.rs lines 95-167): made-up example sensor data. -/
def sample_sensor : Sensor :=
  let config_cold_consecutive : TemperatureBreachConfig :=
    { breach_type := BreachType.ColdConsecutive
      maximum_temperature := 100.0
      minimum_temperature := 2.0
      duration := 240 }
  let config_hot_consecutive : TemperatureBreachConfig :=
    { breach_type := BreachType.HotConsecutive
      maximum_temperature := 8.0
      minimum_temperature := -273.0
      duration := 300 }
  let interval : ℤ := 60
  let hot_start_timestamp := sampleBase + interval * 4
  let hot_end_timestamp := sampleBase + interval * 10
  let hot_duration := hot_end_timestamp - hot_start_timestamp
  let cold_start_timestamp := sampleBase + interval * 13
  let cold_end_timestamp := sampleBase + interval * 17
  let cold_duration := cold_end_timestamp - cold_start_timestamp
  let temperature_logs := mkLogs temperature_values sampleBase interval
  let breach_cold_consecutive : TemperatureBreach :=
    { breach_type := BreachType.ColdConsecutive
      start_timestamp := cold_start_timestamp
      end_timestamp := cold_end_timestamp
      duration := cold_duration
      acknowledged := false }
  let breach_hot_consecutive : TemperatureBreach :=
    { breach_type := BreachType.HotConsecutive
      start_timestamp := hot_start_timestamp
      end_timestamp := hot_end_timestamp
      duration := hot_duration
      acknowledged := false }
  { sensor_type := SensorType.Berlinger
    serial := "reg 1234"
    name := "Berlinger 1"
    -- the loop leaves the timestamp cursor one interval past the last sample
    last_connected_timestamp := some (sampleBase + interval * temperature_values.length)
    log_interval := some interval
    breaches := some [breach_hot_consecutive, breach_cold_consecutive]
    configs := some [config_cold_consecutive, config_hot_consecutive]
    logs := some temperature_logs }

/-! ## `filter_sensor` (lib.rs lines 268-367) -/

/-- Log predicate of the start pass: `log.timestamp >= start`. -/
def keepLogFrom (start : ℤ) (log : TemperatureLog) : Bool :=
  log.timestamp ≥ start

/-- Log predicate of the end pass: `log.timestamp <= end`. -/
def keepLogUntil (stop : ℤ) (log : TemperatureLog) : Bool :=
  log.timestamp ≤ stop

/-- Breach predicate of the start pass:
`breach.start_timestamp >= start || breach.end_timestamp >= start`
(the two `push` branches of lib.rs lines 294-300). -/
def keepBreachFrom (start : ℤ) (breach : TemperatureBreach) : Bool :=
  breach.start_timestamp ≥ start || breach.end_timestamp ≥ start

/-- Breach predicate of the end pass:
`breach.end_timestamp <= end || breach.start_timestamp <= end`
(the two `push` branches of lib.rs lines 333-339). -/
def keepBreachUntil (stop : ℤ) (breach : TemperatureBreach) : Bool :=
  breach.end_timestamp ≤ stop || breach.start_timestamp ≤ stop

/-- `if filtered.len() > 0 { Some(filtered) } else { None }`. -/
def normalizeList {α : Type} (l : List α) : Option (List α) :=
  if l.length > 0 then some l else none

/-- The `if let Some(start) = start_timestamp` block of `filter_sensor`
(lib.rs lines 273-310): filter logs, normalize, then filter breaches,
normalize.  The `None => {}` arms leave the field untouched. -/
def applyStartFilter (start : ℤ) (sensor : Sensor) : Sensor :=
  let sensor :=
    match sensor.logs with
    | some logs => { sensor with logs := normalizeList (logs.filter (keepLogFrom start)) }
    | none => sensor
  match sensor.breaches with
  | some breaches =>
      { sensor with breaches := normalizeList (breaches.filter (keepBreachFrom start)) }
  | none => sensor

/-- The `if let Some(end) = end_timestamp` block of `filter_sensor`
(lib.rs lines 312-349). -/
def applyEndFilter (stop : ℤ) (sensor : Sensor) : Sensor :=
  let sensor :=
    match sensor.logs with
    | some logs => { sensor with logs := normalizeList (logs.filter (keepLogUntil stop)) }
    | none => sensor
  match sensor.breaches with
  | some breaches =>
      { sensor with breaches := normalizeList (breaches.filter (keepBreachUntil stop)) }
  | none => sensor

/-- `filter_sensor` (lib.rs lines 268-367): applies the optional start pass,
then the optional end pass.  The debug-output block (lines 351-364) only
writes a file and does not affect the returned sensor. -/
def filter_sensor (sensor : Sensor) (start_timestamp end_timestamp : Option ℤ) :
    Sensor :=
  let sensor :=
    match start_timestamp with
    | some start => applyStartFilter start sensor
    | none => sensor
  match end_timestamp with
  | some stop => applyEndFilter stop sensor
  | none => sensor

/-! ## Projections used in statements -/

/-- The logs of a sensor, reading an absent field as the empty list. -/
def sensorLogs (s : Sensor) : List TemperatureLog := s.logs.getD []

/-- The breaches of a sensor, reading an absent field as the empty list. -/
def sensorBreaches (s : Sensor) : List TemperatureBreach := s.breaches.getD []

/-- The window test the spec states for logs: `timestamp >= start_ts`
(when present) and `timestamp <= end_ts` (when present). -/
def logInWindow (startT stopT : Option ℤ) (log : TemperatureLog) : Bool :=
  (match startT with
   | some t => decide (log.timestamp ≥ t)
   | none => true) &&
  (match stopT with
   | some t => decide (log.timestamp ≤ t)
   | none => true)

/-- The overlap test the spec states for breaches:
NOT (`end_timestamp < start_ts`) and NOT (`start_timestamp > end_ts`). -/
def breachOverlapsWindow (startT stopT : Option ℤ) (breach : TemperatureBreach) :
    Bool :=
  (match startT with
   | some t => !decide (breach.end_timestamp < t)
   | none => true) &&
  (match stopT with
   | some t => !decide (breach.start_timestamp > t)
   | none => true)

/-! ## Characterization lemmas for `filter_sensor` -/

/-- One pass of `filter_sensor` on one optional list field:
filter when present, then normalize empty to absent. -/
def passOpt {α : Type} (p : α → Bool) : Option (List α) → Option (List α)
  | none => none
  | some l => normalizeList (l.filter p)

/-- One optional pass: identity when the bound is absent. -/
def optPass {α : Type} (p : ℤ → α → Bool) (bound : Option ℤ)
    (o : Option (List α)) : Option (List α) :=
  match bound with
  | none => o
  | some t => passOpt (p t) o

/-! ## Spec-modelled Cumulative-Breach Reconstructor (spec §4.1)

The reconstruction itself is implemented in the `berlinger` module, which
is not part of `lib.rs`; only the crate-level doc comment (lib.rs lines
22-27) describes it.  The definitions below are therefore modelled from
the spec. -/

/-- Modelled from the spec: `midnight_start`, the start of the trigger
timestamp's calendar day (spec §4.1), for timestamps in seconds since the
epoch; the `berlinger` decoding module that computes it is missing from
the sources. -/
def midnightStart (t : ℤ) : ℤ := 86400 * Int.fdiv t 86400

/-- Modelled from the spec: `midnight_end`, the start of the next
calendar day (spec §4.1). -/
def midnightEnd (t : ℤ) : ℤ := midnightStart t + 86400

/-- Modelled from the spec: the Cumulative-Breach Reconstructor of §4.1
(`start = max(T - D_cfg, midnight_start)`,
`end = min(start + D_total, midnight_end)`), implemented in the missing
`berlinger` module and described in lib.rs lines 22-27. -/
def reconstructCumulative (T Dcfg Dtotal : ℤ) : ℤ × ℤ :=
  let start := max (T - Dcfg) (midnightStart T)
  let stop := min (start + Dtotal) (midnightEnd T)
  (start, stop)

/-- The single-pass filter the spec's §4.4 equivalence note describes:
keep each log iff `start_ts <= timestamp <= end_ts`, keep each breach iff
`end_timestamp >= start_ts` and `start_timestamp <= end_ts`, followed by
the same empty-to-absent normalization.  This definition follows the
spec's words; it is the comparison point of the refinement claim, not a
translation of the source. -/
def jointFilterSpec (s : Sensor) (startT stopT : ℤ) : Sensor :=
  { s with
    logs :=
      match s.logs with
      | none => none
      | some logs =>
          normalizeList (logs.filter fun log =>
            decide (startT ≤ log.timestamp) && decide (log.timestamp ≤ stopT))
    breaches :=
      match s.breaches with
      | none => none
      | some breaches =>
          normalizeList (breaches.filter fun breach =>
            decide (startT ≤ breach.end_timestamp) &&
              decide (breach.start_timestamp ≤ stopT)) }

theorem normalizeList_getD {α : Type} (l : List α) :
    (normalizeList l).getD [] = l := by
  cases l <;> simp [normalizeList]

theorem normalizeList_ne_some_nil {α : Type} (l : List α) :
    normalizeList l ≠ some [] := by
  cases l <;> simp [normalizeList]

theorem passOpt_ne_some_nil {α : Type} (p : α → Bool) (o : Option (List α)) :
    passOpt p o ≠ some [] := by
  cases o with
  | none => simp [passOpt]
  | some l => simpa [passOpt] using normalizeList_ne_some_nil (l.filter p)

theorem mem_passOpt {α : Type} (p : α → Bool) (o : Option (List α)) (x : α) :
    x ∈ (passOpt p o).getD [] ↔ x ∈ o.getD [] ∧ p x = true := by
  cases o with
  | none => simp [passOpt]
  | some l => simp [passOpt, normalizeList_getD, List.mem_filter]

theorem passOpt_passOpt {α : Type} (p q : α → Bool) (o : Option (List α)) :
    passOpt p (passOpt q o) = passOpt (fun x => p x && q x) o := by
  cases o with
  | none => rfl
  | some l =>
      show passOpt p (normalizeList (l.filter q)) = _
      cases hl : l.filter q with
      | nil =>
          have hz : l.filter (fun x => p x && q x) = [] := by
            have h2 := @List.filter_filter α p q l
            rw [hl] at h2
            simpa using h2.symm
          simp [passOpt, normalizeList, hl, hz]
      | cons y ys =>
          have hsome : normalizeList (y :: ys) = some (y :: ys) := by
            simp [normalizeList]
          rw [hsome]
          show normalizeList ((y :: ys).filter p) = _
          rw [← hl, @List.filter_filter α p q l]
          rfl

theorem passOpt_congr {α : Type} (p q : α → Bool) (o : Option (List α))
    (h : ∀ x ∈ o.getD [], p x = q x) : passOpt p o = passOpt q o := by
  cases o with
  | none => rfl
  | some l =>
      show normalizeList (l.filter p) = normalizeList (l.filter q)
      rw [List.filter_congr (by simpa using h)]

theorem passOpt_idem {α : Type} (p : α → Bool) (o : Option (List α)) :
    passOpt p (passOpt p o) = passOpt p o := by
  rw [passOpt_passOpt]
  exact passOpt_congr _ _ _ (fun x _ => by cases hp : p x <;> simp [hp])

theorem applyStartFilter_logs (t : ℤ) (s : Sensor) :
    (applyStartFilter t s).logs = passOpt (keepLogFrom t) s.logs := by
  cases hl : s.logs <;> cases hb : s.breaches <;>
    simp [applyStartFilter, passOpt, hl, hb]

theorem applyStartFilter_breaches (t : ℤ) (s : Sensor) :
    (applyStartFilter t s).breaches = passOpt (keepBreachFrom t) s.breaches := by
  cases hl : s.logs <;> cases hb : s.breaches <;>
    simp [applyStartFilter, passOpt, hl, hb]

theorem applyEndFilter_logs (t : ℤ) (s : Sensor) :
    (applyEndFilter t s).logs = passOpt (keepLogUntil t) s.logs := by
  cases hl : s.logs <;> cases hb : s.breaches <;>
    simp [applyEndFilter, passOpt, hl, hb]

theorem applyEndFilter_breaches (t : ℤ) (s : Sensor) :
    (applyEndFilter t s).breaches = passOpt (keepBreachUntil t) s.breaches := by
  cases hl : s.logs <;> cases hb : s.breaches <;>
    simp [applyEndFilter, passOpt, hl, hb]

theorem filter_sensor_logs (s : Sensor) (a b : Option ℤ) :
    (filter_sensor s a b).logs =
      optPass keepLogUntil b (optPass keepLogFrom a s.logs) := by
  cases a <;> cases b <;>
    simp [filter_sensor, optPass, applyEndFilter_logs, applyStartFilter_logs]

theorem filter_sensor_breaches (s : Sensor) (a b : Option ℤ) :
    (filter_sensor s a b).breaches =
      optPass keepBreachUntil b (optPass keepBreachFrom a s.breaches) := by
  cases a <;> cases b <;>
    simp [filter_sensor, optPass, applyEndFilter_breaches, applyStartFilter_breaches]

theorem mem_optPass {α : Type} (p : ℤ → α → Bool) (a : Option ℤ)
    (o : Option (List α)) (x : α) :
    x ∈ (optPass p a o).getD [] ↔
      x ∈ o.getD [] ∧ (∀ t, a = some t → p t x = true) := by
  cases a <;> simp [optPass, mem_passOpt]

theorem optPass_ne_some_nil {α : Type} (p q : ℤ → α → Bool) (a b : Option ℤ)
    (o : Option (List α)) (h : a.isSome ∨ b.isSome) :
    optPass q b (optPass p a o) ≠ some [] := by
  cases b with
  | some t => simp [optPass, passOpt_ne_some_nil]
  | none =>
      cases a with
      | some t => simpa [optPass] using passOpt_ne_some_nil (p t) o
      | none => simp at h

theorem passOpt_four {α : Type} (P Q : α → Bool) (o : Option (List α)) :
    passOpt Q (passOpt P (passOpt Q (passOpt P o))) = passOpt Q (passOpt P o) := by
  rw [passOpt_passOpt, passOpt_passOpt, passOpt_passOpt, passOpt_passOpt]
  exact passOpt_congr _ _ _
    (fun x _ => by cases hq : Q x <;> cases hp : P x <;> simp [hq, hp])

theorem optPass_idem2 {α : Type} (p q : ℤ → α → Bool) (a b : Option ℤ)
    (o : Option (List α)) :
    optPass q b (optPass p a (optPass q b (optPass p a o))) =
      optPass q b (optPass p a o) := by
  cases a <;> cases b <;> simp [optPass, passOpt_idem, passOpt_four]

/-- With the `end_timestamp >= start_timestamp` invariant, the start pass
keeps a breach exactly when NOT (`end_timestamp < start`). -/
theorem keepBreachFrom_eq (t : ℤ) (br : TemperatureBreach)
    (h : br.start_timestamp ≤ br.end_timestamp) :
    keepBreachFrom t br = !decide (br.end_timestamp < t) := by
  by_cases h1 : t ≤ br.end_timestamp
  · simp [keepBreachFrom, h1, not_lt.mpr h1]
  · have h2 : ¬ t ≤ br.start_timestamp := fun hs => h1 (hs.trans h)
    simp [keepBreachFrom, h2, h1, not_le.mp h1]

/-- With the `end_timestamp >= start_timestamp` invariant, the end pass
keeps a breach exactly when NOT (`start_timestamp > stop`). -/
theorem keepBreachUntil_eq (t : ℤ) (br : TemperatureBreach)
    (h : br.start_timestamp ≤ br.end_timestamp) :
    keepBreachUntil t br = !decide (br.start_timestamp > t) := by
  by_cases h1 : br.start_timestamp ≤ t
  · simp [keepBreachUntil, h1, not_lt.mpr h1]
  · have h2 : ¬ br.end_timestamp ≤ t := fun hs => h1 (h.trans hs)
    simp [keepBreachUntil, h2, h1, not_le.mp h1]

/-- The window overlap test decomposes into the two pass predicates,
under the breach invariant. -/
theorem breachOverlapsWindow_iff (a b : Option ℤ) (br : TemperatureBreach)
    (h : br.start_timestamp ≤ br.end_timestamp) :
    breachOverlapsWindow a b br = true ↔
      (∀ t, a = some t → keepBreachFrom t br = true) ∧
      (∀ t, b = some t → keepBreachUntil t br = true) := by
  cases a <;> cases b <;>
    simp [breachOverlapsWindow, keepBreachFrom_eq _ _ h, keepBreachUntil_eq _ _ h]

theorem applyStartFilter_frame (t : ℤ) (s : Sensor) :
    (applyStartFilter t s).sensor_type = s.sensor_type ∧
    (applyStartFilter t s).serial = s.serial ∧
    (applyStartFilter t s).name = s.name ∧
    (applyStartFilter t s).last_connected_timestamp = s.last_connected_timestamp ∧
    (applyStartFilter t s).log_interval = s.log_interval ∧
    (applyStartFilter t s).configs = s.configs := by
  cases hl : s.logs <;> cases hb : s.breaches <;>
    simp [applyStartFilter, hl, hb]

theorem applyEndFilter_frame (t : ℤ) (s : Sensor) :
    (applyEndFilter t s).sensor_type = s.sensor_type ∧
    (applyEndFilter t s).serial = s.serial ∧
    (applyEndFilter t s).name = s.name ∧
    (applyEndFilter t s).last_connected_timestamp = s.last_connected_timestamp ∧
    (applyEndFilter t s).log_interval = s.log_interval ∧
    (applyEndFilter t s).configs = s.configs := by
  cases hl : s.logs <;> cases hb : s.breaches <;>
    simp [applyEndFilter, hl, hb]

theorem filter_sensor_frame (s : Sensor) (a b : Option ℤ) :
    (filter_sensor s a b).sensor_type = s.sensor_type ∧
    (filter_sensor s a b).serial = s.serial ∧
    (filter_sensor s a b).name = s.name ∧
    (filter_sensor s a b).last_connected_timestamp = s.last_connected_timestamp ∧
    (filter_sensor s a b).log_interval = s.log_interval ∧
    (filter_sensor s a b).configs = s.configs := by
  cases a with
  | none =>
      cases b with
      | none => exact ⟨rfl, rfl, rfl, rfl, rfl, rfl⟩
      | some tb => exact applyEndFilter_frame tb s
  | some ta =>
      cases b with
      | none => exact applyStartFilter_frame ta s
      | some tb =>
          obtain ⟨e1, e2, e3, e4, e5, e6⟩ :=
            applyEndFilter_frame tb (applyStartFilter ta s)
          obtain ⟨f1, f2, f3, f4, f5, f6⟩ := applyStartFilter_frame ta s
          exact ⟨e1.trans f1, e2.trans f2, e3.trans f3, e4.trans f4,
            e5.trans f5, e6.trans f6⟩

/-! ## Claims -/

/-- C3: a temperature log appears in the logs of `filter_sensor`'s result
iff it is in the input logs and `timestamp >= start_ts` (when present)
and `timestamp <= end_ts` (when present); an absent bound imposes no
constraint on that side. -/
theorem filter_sensor_keeps_log_iff_in_window (s : Sensor) (a b : Option ℤ)
    (l : TemperatureLog) :
    l ∈ sensorLogs (filter_sensor s a b) ↔
      l ∈ sensorLogs s ∧ logInWindow a b l = true := by
  unfold sensorLogs
  rw [filter_sensor_logs, mem_optPass, mem_optPass, and_assoc]
  cases a <;> cases b <;>
    simp [logInWindow, keepLogFrom, keepLogUntil, ge_iff_le, and_comm]

/-- C9: `filter_sensor` changes only the `logs` and `breaches` fields;
`sensor_type`, `serial`, `name`, `last_connected_timestamp`,
`log_interval` and `configs` are returned exactly as in the input. -/
theorem filter_sensor_preserves_frame_fields (s : Sensor) (a b : Option ℤ) :
    (filter_sensor s a b).sensor_type = s.sensor_type ∧
    (filter_sensor s a b).serial = s.serial ∧
    (filter_sensor s a b).name = s.name ∧
    (filter_sensor s a b).last_connected_timestamp = s.last_connected_timestamp ∧
    (filter_sensor s a b).log_interval = s.log_interval ∧
    (filter_sensor s a b).configs = s.configs :=
  filter_sensor_frame s a b

/-- C10: `filter_sensor` is idempotent: filtering an already-filtered
sensor with the same optional bounds returns it unchanged. -/
theorem filter_sensor_idempotent (s : Sensor) (a b : Option ℤ) :
    filter_sensor (filter_sensor s a b) a b = filter_sensor s a b := by
  obtain ⟨h1, h2, h3, h4, h5, h6⟩ := filter_sensor_frame (filter_sensor s a b) a b
  refine Sensor.ext h1 h2 h3 h4 h5 ?_ h6 ?_
  · rw [filter_sensor_breaches (filter_sensor s a b) a b,
      filter_sensor_breaches s a b, optPass_idem2]
  · rw [filter_sensor_logs (filter_sensor s a b) a b,
      filter_sensor_logs s a b, optPass_idem2]

/-- C2: every breach retained by `filter_sensor` is returned completely
unmodified: some input breach has exactly its `breach_type`,
`start_timestamp`, `end_timestamp`, `duration` and `acknowledged`. -/
theorem filter_sensor_breach_unmodified (s : Sensor) (a b : Option ℤ)
    (br : TemperatureBreach)
    (h : br ∈ sensorBreaches (filter_sensor s a b)) :
    ∃ br0 ∈ sensorBreaches s,
      br.breach_type = br0.breach_type ∧
      br.start_timestamp = br0.start_timestamp ∧
      br.end_timestamp = br0.end_timestamp ∧
      br.duration = br0.duration ∧
      br.acknowledged = br0.acknowledged := by
  have hm : br ∈ sensorBreaches s := by
    unfold sensorBreaches at h ⊢
    rw [filter_sensor_breaches, mem_optPass, mem_optPass] at h
    exact h.1.1
  exact ⟨br, hm, rfl, rfl, rfl, rfl, rfl⟩

/-- C4: when at least one bound is present, `filter_sensor` never returns
a present empty `logs` or `breaches` list: an emptied list is normalized
to absent. -/
theorem filter_sensor_normalizes_empty (s : Sensor) (a b : Option ℤ)
    (h : a.isSome ∨ b.isSome) :
    (filter_sensor s a b).logs ≠ some [] ∧
    (filter_sensor s a b).breaches ≠ some [] := by
  constructor
  · rw [filter_sensor_logs]
    exact optPass_ne_some_nil _ _ a b s.logs h
  · rw [filter_sensor_breaches]
    exact optPass_ne_some_nil _ _ a b s.breaches h

/-- C1: under the breach invariant `end_timestamp >= start_timestamp`,
`filter_sensor` keeps a breach iff it overlaps the window: NOT
(`end_timestamp < start_ts`) when present and NOT
(`start_timestamp > end_ts`) when present. -/
theorem filter_sensor_keeps_breach_iff_overlaps (s : Sensor) (a b : Option ℤ)
    (hinv : ∀ br ∈ sensorBreaches s, br.start_timestamp ≤ br.end_timestamp)
    (br : TemperatureBreach) :
    br ∈ sensorBreaches (filter_sensor s a b) ↔
      br ∈ sensorBreaches s ∧ breachOverlapsWindow a b br = true := by
  unfold sensorBreaches
  rw [filter_sensor_breaches, mem_optPass, mem_optPass, and_assoc]
  constructor
  · rintro ⟨hm, hf, hu⟩
    exact ⟨hm, (breachOverlapsWindow_iff a b br (hinv br hm)).mpr ⟨hf, hu⟩⟩
  · rintro ⟨hm, hov⟩
    obtain ⟨hf, hu⟩ := (breachOverlapsWindow_iff a b br (hinv br hm)).mp hov
    exact ⟨hm, hf, hu⟩

/-- Witness for C1 at a concrete sensor, window and breach. -/
theorem filter_sensor_keeps_breach_iff_overlaps_witness :
    ({ breach_type := BreachType.HotConsecutive,
       start_timestamp := sampleBase + 240, end_timestamp := sampleBase + 600,
       duration := 360, acknowledged := false } : TemperatureBreach) ∈
        sensorBreaches (filter_sensor sample_sensor
          (some (sampleBase + 300)) (some (sampleBase + 900))) ↔
      ({ breach_type := BreachType.HotConsecutive,
         start_timestamp := sampleBase + 240, end_timestamp := sampleBase + 600,
         duration := 360, acknowledged := false } : TemperatureBreach) ∈
          sensorBreaches sample_sensor ∧
        breachOverlapsWindow (some (sampleBase + 300)) (some (sampleBase + 900))
          { breach_type := BreachType.HotConsecutive,
            start_timestamp := sampleBase + 240, end_timestamp := sampleBase + 600,
            duration := 360, acknowledged := false } = true :=
  filter_sensor_keeps_breach_iff_overlaps sample_sensor
    (some (sampleBase + 300)) (some (sampleBase + 900)) (by decide) _

/-- Witness for C2 at a concrete sensor, window and retained breach. -/
theorem filter_sensor_breach_unmodified_witness :
    ∃ br0 ∈ sensorBreaches sample_sensor,
      ({ breach_type := BreachType.HotConsecutive,
         start_timestamp := sampleBase + 240, end_timestamp := sampleBase + 600,
         duration := 360, acknowledged := false } : TemperatureBreach).breach_type =
          br0.breach_type ∧
      ({ breach_type := BreachType.HotConsecutive,
         start_timestamp := sampleBase + 240, end_timestamp := sampleBase + 600,
         duration := 360, acknowledged := false } : TemperatureBreach).start_timestamp =
          br0.start_timestamp ∧
      ({ breach_type := BreachType.HotConsecutive,
         start_timestamp := sampleBase + 240, end_timestamp := sampleBase + 600,
         duration := 360, acknowledged := false } : TemperatureBreach).end_timestamp =
          br0.end_timestamp ∧
      ({ breach_type := BreachType.HotConsecutive,
         start_timestamp := sampleBase + 240, end_timestamp := sampleBase + 600,
         duration := 360, acknowledged := false } : TemperatureBreach).duration =
          br0.duration ∧
      ({ breach_type := BreachType.HotConsecutive,
         start_timestamp := sampleBase + 240, end_timestamp := sampleBase + 600,
         duration := 360, acknowledged := false } : TemperatureBreach).acknowledged =
          br0.acknowledged :=
  filter_sensor_breach_unmodified sample_sensor
    (some (sampleBase + 300)) (some (sampleBase + 900)) _ (by decide)

/-- Witness for C4 at a concrete sensor and window. -/
theorem filter_sensor_normalizes_empty_witness :
    (filter_sensor sample_sensor (some (sampleBase + 300)) none).logs ≠ some [] ∧
    (filter_sensor sample_sensor (some (sampleBase + 300)) none).breaches ≠ some [] :=
  filter_sensor_normalizes_empty sample_sensor (some (sampleBase + 300)) none
    (by decide)

/-- C5 (spec-modelled): the Cumulative-Breach Reconstructor yields
`start = max(T - D_cfg, midnight_start)` and
`end = min(start + D_total, midnight_end)`; when `T - D_cfg` is before
midnight the start is clamped to midnight exactly, and when
`start + D_total` passes the next midnight the end is clamped to the next
midnight exactly. -/
theorem reconstruct_cumulative_clamps (T Dcfg Dtotal : ℤ) :
    (reconstructCumulative T Dcfg Dtotal).1 = max (T - Dcfg) (midnightStart T) ∧
    (reconstructCumulative T Dcfg Dtotal).2 =
      min ((reconstructCumulative T Dcfg Dtotal).1 + Dtotal) (midnightEnd T) ∧
    (T - Dcfg < midnightStart T →
      (reconstructCumulative T Dcfg Dtotal).1 = midnightStart T) ∧
    (midnightEnd T < (reconstructCumulative T Dcfg Dtotal).1 + Dtotal →
      (reconstructCumulative T Dcfg Dtotal).2 = midnightEnd T) :=
  ⟨rfl, rfl, fun h => max_eq_right h.le, fun h => min_eq_right h.le⟩

/-- Witness for C5: both clamps fire at `T = 100`, `D_cfg = 200`,
`D_total = 100000`. -/
theorem reconstruct_cumulative_clamps_witness :
    (reconstructCumulative 100 200 100000).1 = midnightStart 100 ∧
    (reconstructCumulative 100 200 100000).2 = midnightEnd 100 :=
  ⟨(reconstruct_cumulative_clamps 100 200 100000).2.2.1 (by decide),
   (reconstruct_cumulative_clamps 100 200 100000).2.2.2 (by decide)⟩

/-- C6: `sample_sensor` holds exactly two breaches: a HotConsecutive one
starting at 13:04:00 (sample index 4) and a ColdConsecutive one ending at
13:17:00 (sample index 17), with 19 logs at 1-minute intervals carrying
the literal sample temperature sequence. -/
theorem sample_sensor_scenario :
    (∃ hotB coldB, sample_sensor.breaches = some [hotB, coldB] ∧
        hotB.breach_type = BreachType.HotConsecutive ∧
        hotB.start_timestamp = sampleBase + 4 * 60 ∧
        coldB.breach_type = BreachType.ColdConsecutive ∧
        coldB.end_timestamp = sampleBase + 17 * 60) ∧
    ∃ logs, sample_sensor.logs = some logs ∧
        logs.length = 19 ∧
        logs.map TemperatureLog.temperature = temperature_values ∧
        logs.map TemperatureLog.timestamp =
          (List.range 19).map fun i => sampleBase + 60 * (i : ℤ) := by
  refine ⟨⟨_, _, rfl, rfl, by decide, rfl, by decide⟩,
    _, rfl, by decide, rfl, by decide⟩

/-- C7: every breach of `sample_sensor` satisfies
`end_timestamp >= start_timestamp` and
`duration = end_timestamp - start_timestamp`, and `filter_sensor`
preserves this invariant. -/
theorem sample_and_filter_breach_invariant (s : Sensor) (a b : Option ℤ)
    (h : ∀ br ∈ sensorBreaches s, br.start_timestamp ≤ br.end_timestamp ∧
        br.duration = br.end_timestamp - br.start_timestamp) :
    (∀ br ∈ sensorBreaches sample_sensor,
        br.start_timestamp ≤ br.end_timestamp ∧
        br.duration = br.end_timestamp - br.start_timestamp) ∧
    (∀ br ∈ sensorBreaches (filter_sensor s a b),
        br.start_timestamp ≤ br.end_timestamp ∧
        br.duration = br.end_timestamp - br.start_timestamp) := by
  refine ⟨by decide, fun br hm => h br ?_⟩
  unfold sensorBreaches at hm ⊢
  rw [filter_sensor_breaches, mem_optPass, mem_optPass] at hm
  exact hm.1.1

/-- Witness for C7 at a concrete sensor and window. -/
theorem sample_and_filter_breach_invariant_witness :
    (∀ br ∈ sensorBreaches sample_sensor,
        br.start_timestamp ≤ br.end_timestamp ∧
        br.duration = br.end_timestamp - br.start_timestamp) ∧
    (∀ br ∈ sensorBreaches
        (filter_sensor sample_sensor (some (sampleBase + 300)) none),
        br.start_timestamp ≤ br.end_timestamp ∧
        br.duration = br.end_timestamp - br.start_timestamp) :=
  sample_and_filter_breach_invariant sample_sensor (some (sampleBase + 300)) none
    (by decide)

/-- C8: with both bounds present and the breach invariant, the two
sequential passes of `filter_sensor` coincide with the single joint pass
described by the spec. -/
theorem filter_sensor_two_passes_eq_joint (s : Sensor) (ta tb : ℤ)
    (hinv : ∀ br ∈ sensorBreaches s, br.start_timestamp ≤ br.end_timestamp) :
    filter_sensor s (some ta) (some tb) = jointFilterSpec s ta tb := by
  obtain ⟨h1, h2, h3, h4, h5, h6⟩ := filter_sensor_frame s (some ta) (some tb)
  refine Sensor.ext h1 h2 h3 h4 h5 ?_ h6 ?_
  · rw [filter_sensor_breaches]
    cases hb : s.breaches with
    | none => simp [optPass, passOpt, jointFilterSpec, hb]
    | some bs =>
        simp only [optPass]
        rw [passOpt_passOpt]
        have hjf : (jointFilterSpec s ta tb).breaches =
            normalizeList (bs.filter fun breach =>
              decide (ta ≤ breach.end_timestamp) &&
                decide (breach.start_timestamp ≤ tb)) := by
          simp [jointFilterSpec, hb]
        rw [hjf]
        show normalizeList (bs.filter _) = _
        refine congrArg normalizeList (List.filter_congr ?_)
        intro x hx
        have hbx : x.start_timestamp ≤ x.end_timestamp := by
          refine hinv x ?_
          unfold sensorBreaches
          rw [hb]
          exact hx
        rw [keepBreachUntil_eq _ _ hbx, keepBreachFrom_eq _ _ hbx]
        by_cases hA : ta ≤ x.end_timestamp <;> by_cases hB : x.start_timestamp ≤ tb
        · simp [hA, hB, not_lt.mpr hA, not_lt.mpr hB]
        · simp [hA, hB, not_lt.mpr hA, not_le.mp hB]
        · simp [hA, hB, not_le.mp hA, not_lt.mpr hB]
        · simp [hA, hB, not_le.mp hA, not_le.mp hB]
  · rw [filter_sensor_logs]
    cases hl : s.logs with
    | none => simp [optPass, passOpt, jointFilterSpec, hl]
    | some ls =>
        simp only [optPass]
        rw [passOpt_passOpt]
        have hjf : (jointFilterSpec s ta tb).logs =
            normalizeList (ls.filter fun log =>
              decide (ta ≤ log.timestamp) && decide (log.timestamp ≤ tb)) := by
          simp [jointFilterSpec, hl]
        rw [hjf]
        show normalizeList (ls.filter _) = _
        refine congrArg normalizeList (List.filter_congr ?_)
        intro x hx
        simp [keepLogFrom, keepLogUntil, ge_iff_le, Bool.and_comm]

/-- Witness for C8 at a concrete sensor and window. -/
theorem filter_sensor_two_passes_eq_joint_witness :
    filter_sensor sample_sensor (some (sampleBase + 300)) (some (sampleBase + 900)) =
      jointFilterSpec sample_sensor (sampleBase + 300) (sampleBase + 900) :=
  filter_sensor_two_passes_eq_joint sample_sensor (sampleBase + 300)
    (sampleBase + 900) (by decide)

end TemperatureSensor
